import Mathlib

/-!
Verification development for the interactive vector-canvas editor and its
layout-to-raster compositing pipeline.

The TypeScript source is shallowly embedded: JS numbers are modelled as
rationals (`ℚ`), shape records as an inductive tagged union mirroring the
`CanvasShape` union of the source, the per-page undo history as a `Page`
structure, and the SVG output of the compositor as a list of structured
draw commands in emission order.
-/

namespace MangaCanvas

/-- A document-space point `{x, y}`. -/
structure Point where
  x : ℚ
  y : ℚ
deriving DecidableEq

/-- Minimum of a nonempty list of rationals (`Math.min(...xs)`);
degenerate `[]` case returns 0 (the source never takes a min of an
empty list on the paths embedded here, it guards emptiness first). -/
def qmins : List ℚ → ℚ
  | [] => 0
  | [a] => a
  | a :: b :: t => min a (qmins (b :: t))

/-- Maximum of a nonempty list of rationals (`Math.max(...xs)`). -/
def qmaxs : List ℚ → ℚ
  | [] => 0
  | [a] => a
  | a :: b :: t => max a (qmaxs (b :: t))

/-- An axis-aligned rectangle `{x, y, width, height}`. -/
structure Box where
  x : ℚ
  y : ℚ
  width : ℚ
  height : ℚ
deriving DecidableEq

/-- `getBBoxCenter` nested inside `getPolygonCentroid`: center of the
tight bounding box of the points, `(0,0)` for an empty list. -/
def getBBoxCenter (points : List Point) : Point :=
  match points with
  | [] => ⟨0, 0⟩
  | _ =>
    let xs := points.map Point.x
    let ys := points.map Point.y
    let minX := qmins xs
    let minY := qmins ys
    ⟨minX + (qmaxs xs - minX) / 2, minY + (qmaxs ys - minY) / 2⟩

/-- Consecutive vertex pairs `(points[i], points[(i+1) % n])` of a closed
polygon, as traversed by the loop in `getPolygonCentroid`. -/
def cyclicPairs (points : List Point) : List (Point × Point) :=
  points.zip (points.rotate 1)

/-- The signed polygon area accumulated by `getPolygonCentroid`
(`area` after the loop and the `area /= 2`). -/
def signedArea (points : List Point) : ℚ :=
  ((cyclicPairs points).map fun q => q.1.x * q.2.y - q.2.x * q.1.y).sum / 2

/-- The signed-area-weighted polygon centroid formula, written from the
spec's words ("the signed-area weighted centroid formula for polygons"),
for comparison with the source computation. -/
def weightedCentroid (points : List Point) : Point :=
  let area := signedArea points
  let cx := ((cyclicPairs points).map fun q =>
    (q.1.x + q.2.x) * (q.1.x * q.2.y - q.2.x * q.1.y)).sum
  let cy := ((cyclicPairs points).map fun q =>
    (q.1.y + q.2.y) * (q.1.x * q.2.y - q.2.x * q.1.y)).sum
  ⟨cx / (6 * area), cy / (6 * area)⟩

/-- `getPolygonCentroid` from `PanelEditor.tsx`: bounding-box-center
fallback for fewer than 3 points or numerically degenerate area
(`|area| < 1e-6`), signed-area-weighted centroid otherwise. -/
def getPolygonCentroid (points : List Point) : Point :=
  if points.length < 3 then getBBoxCenter points
  else
    let area := signedArea points
    if |area| < 1 / 1000000 then getBBoxCenter points
    else weightedCentroid points

/-- The three bubble silhouette kinds of `BubbleShape.bubbleType`. -/
inductive BubbleKind
  | rounded
  | oval
  | rect
deriving DecidableEq

/-- The four skeleton visibility presets of `SkeletonPose.preset`. -/
inductive SkeletonPreset
  | full
  | upper
  | lower
  | face
deriving DecidableEq

/-- `SkeletonData`: a named-joint mapping; modelled as an association
list from joint name to document-space point. -/
abbrev SkeletonData := List (String × Point)

/-- The `Pose` tagged union of `types.ts`: skeleton rig, reference-image
overlay, or freehand overlay with points normalized to the owning box. -/
inductive Pose
  | skeleton (preset : SkeletonPreset) (data : SkeletonData) (comment : String)
  | image (href : String)
  | drawing (points : List (List Point))
deriving DecidableEq

/-- The `CanvasShape` tagged union of `types.ts`. Field order follows the
interface declarations; every variant carries the common `id`, `x`, `y`
fields, plus its own data. -/
inductive CanvasShape
  | panel (id : String) (points : List Point) (x y width height : ℚ)
  | text (id : String) (content : String) (fontSize : ℚ) (x y width height : ℚ)
  | bubble (id : String) (bubbleType : BubbleKind) (content : String)
      (tail : Option Point) (x y width height : ℚ)
  | drawing (id : String) (points : List (List Point))
      (strokeColor : String) (strokeWidth : ℚ) (x y : ℚ)
  | image (id : String) (href : String) (characterId : String)
      (panelIndex : Int) (pose : Option Pose) (x y width height : ℚ)
  | arrow (id : String) (p0 p1 : Point) (strokeColor : String)
      (strokeWidth : ℚ) (x y : ℚ)
deriving DecidableEq

namespace CanvasShape

/-- The common `id` field. -/
def idOf : CanvasShape → String
  | panel i _ _ _ _ _ => i
  | text i _ _ _ _ _ _ => i
  | bubble i _ _ _ _ _ _ _ => i
  | drawing i _ _ _ _ _ => i
  | image i _ _ _ _ _ _ _ _ => i
  | arrow i _ _ _ _ _ _ => i

/-- The common `x` field. -/
def xOf : CanvasShape → ℚ
  | panel _ _ x _ _ _ => x
  | text _ _ _ x _ _ _ => x
  | bubble _ _ _ _ x _ _ _ => x
  | drawing _ _ _ _ x _ => x
  | image _ _ _ _ _ x _ _ _ => x
  | arrow _ _ _ _ _ x _ => x

/-- The common `y` field. -/
def yOf : CanvasShape → ℚ
  | panel _ _ _ y _ _ => y
  | text _ _ _ _ y _ _ => y
  | bubble _ _ _ _ _ y _ _ => y
  | drawing _ _ _ _ _ y => y
  | image _ _ _ _ _ _ y _ _ => y
  | arrow _ _ _ _ _ _ y => y

/-- The optional `width` field, read as `shape.width || 0` where the
source falls back to 0 (drawing and arrow shapes store no width). -/
def widthOf : CanvasShape → ℚ
  | panel _ _ _ _ w _ => w
  | text _ _ _ _ _ w _ => w
  | bubble _ _ _ _ _ _ w _ => w
  | drawing _ _ _ _ _ _ => 0
  | image _ _ _ _ _ _ _ w _ => w
  | arrow _ _ _ _ _ _ _ => 0

/-- The optional `height` field, with the same 0 fallback. -/
def heightOf : CanvasShape → ℚ
  | panel _ _ _ _ _ h => h
  | text _ _ _ _ _ _ h => h
  | bubble _ _ _ _ _ _ _ h => h
  | drawing _ _ _ _ _ _ => 0
  | image _ _ _ _ _ _ _ _ h => h
  | arrow _ _ _ _ _ _ _ => 0

/-- Discriminant test `shape.type === 'panel'`. -/
def isPanel : CanvasShape → Bool
  | panel _ _ _ _ _ _ => true
  | _ => false

/-- Discriminant test `shape.type === 'text'`. -/
def isText : CanvasShape → Bool
  | text _ _ _ _ _ _ _ => true
  | _ => false

/-- Discriminant test `shape.type === 'bubble'`. -/
def isBubble : CanvasShape → Bool
  | bubble _ _ _ _ _ _ _ _ => true
  | _ => false

/-- Discriminant test `shape.type === 'drawing'`. -/
def isDrawing : CanvasShape → Bool
  | drawing _ _ _ _ _ _ => true
  | _ => false

/-- Discriminant test `shape.type === 'image'`. -/
def isImage : CanvasShape → Bool
  | image _ _ _ _ _ _ _ _ _ => true
  | _ => false

/-- Discriminant test `shape.type === 'arrow'`. -/
def isArrow : CanvasShape → Bool
  | arrow _ _ _ _ _ _ _ => true
  | _ => false

end CanvasShape

/-- `getShapeBBox` from `PanelEditor.tsx`: tight box over the point
list(s) for panel/arrow/drawing shapes (falling back to a zero-size box
at the anchor when there are no points), stored box otherwise. -/
def getShapeBBox (shape : CanvasShape) : Box :=
  match shape with
  | .panel _ points x y _ _ =>
    if points.isEmpty then ⟨x, y, 0, 0⟩
    else
      let xs := points.map Point.x
      let ys := points.map Point.y
      ⟨qmins xs, qmins ys, qmaxs xs - qmins xs, qmaxs ys - qmins ys⟩
  | .arrow _ p0 p1 _ _ x y =>
    let points := [p0, p1]
    if points.isEmpty then ⟨x, y, 0, 0⟩
    else
      let xs := points.map Point.x
      let ys := points.map Point.y
      ⟨qmins xs, qmins ys, qmaxs xs - qmins xs, qmaxs ys - qmins ys⟩
  | .drawing _ strokes _ _ x y =>
    if strokes.isEmpty ∨ (strokes.headD []).isEmpty then ⟨x, y, 0, 0⟩
    else
      let allPoints := strokes.flatten
      let xs := allPoints.map Point.x
      let ys := allPoints.map Point.y
      ⟨qmins xs, qmins ys, qmaxs xs - qmins xs, qmaxs ys - qmins ys⟩
  | s => ⟨s.xOf, s.yOf, s.widthOf, s.heightOf⟩

/-! ## Scene graph and history (`handleShapesChange` / `handleUndo` /
`handleRedo` in the app component) -/

/-- The history-relevant fields of a `Page` record: the live shape list,
the snapshot stack, and the current index. -/
structure Page where
  shapes : List CanvasShape
  shapesHistory : List (List CanvasShape)
  shapesHistoryIndex : Nat
deriving DecidableEq

/-- `handleShapesChange(newShapes, recordHistory)` restricted to the
current page: with `recordHistory` it truncates the redo tail
(`history.slice(0, index + 1)`), appends the new snapshot and moves the
index to the new end; without it, it overwrites the snapshot at the
current index, leaving the index unchanged. -/
def handleShapesChange (p : Page) (newShapes : List CanvasShape)
    (recordHistory : Bool) : Page :=
  if recordHistory then
    let newHistory := p.shapesHistory.take (p.shapesHistoryIndex + 1) ++ [newShapes]
    { shapes := newShapes
      shapesHistory := newHistory
      shapesHistoryIndex := newHistory.length - 1 }
  else
    { shapes := newShapes
      shapesHistory := p.shapesHistory.set p.shapesHistoryIndex newShapes
      shapesHistoryIndex := p.shapesHistoryIndex }

/-- `handleUndo`: no-op when `shapesHistoryIndex <= 0`, otherwise
decrement the index and restore that snapshot as the live list. -/
def handleUndo (p : Page) : Page :=
  if p.shapesHistoryIndex ≤ 0 then p
  else
    let newIndex := p.shapesHistoryIndex - 1
    { shapes := p.shapesHistory.getD newIndex []
      shapesHistory := p.shapesHistory
      shapesHistoryIndex := newIndex }

/-- `handleRedo`: no-op when `shapesHistoryIndex >= history.length - 1`,
otherwise increment the index and restore that snapshot. -/
def handleRedo (p : Page) : Page :=
  if p.shapesHistory.length - 1 ≤ p.shapesHistoryIndex then p
  else
    let newIndex := p.shapesHistoryIndex + 1
    { shapes := p.shapesHistory.getD newIndex []
      shapesHistory := p.shapesHistory
      shapesHistoryIndex := newIndex }

/-- Commit (`handleShapesChange` with `recordHistory = true`) folded
over a sequence of shape lists. -/
def commitAll (p : Page) (cs : List (List CanvasShape)) : Page :=
  cs.foldl (fun q s => handleShapesChange q s true) p

/-- Well-formedness maintained by the source for every page: the index
is in bounds and the live shape list is the snapshot at the index (the
`initialPage` starts as `shapes: [], shapesHistory: [[]], index: 0`). -/
def Page.WF (p : Page) : Prop :=
  p.shapesHistoryIndex < p.shapesHistory.length ∧
    p.shapes = p.shapesHistory.getD p.shapesHistoryIndex []

instance (p : Page) : Decidable p.WF :=
  inferInstanceAs (Decidable (_ ∧ _))

/-- The page obtained from `p` by pointing the history at index `i`,
restoring that snapshot as the live list. -/
def restoreAt (p : Page) (i : Nat) : Page :=
  { shapes := p.shapesHistory.getD i []
    shapesHistory := p.shapesHistory
    shapesHistoryIndex := i }

/-- The `initialPage` literal of the app component, history part. -/
def initialPage : Page :=
  { shapes := [], shapesHistory := [[]], shapesHistoryIndex := 0 }

/-! ## View transform (`handleWheel`, `zoom`, `getMousePos`) -/

/-- `ViewTransform` record: `screen = document * scale + translate`. -/
structure ViewTransform where
  scale : ℚ
  x : ℚ
  y : ℚ
deriving DecidableEq

/-- The document-space position of a screen point under a view
transform, as in `getMousePos`: `(screen - translate) / scale`. -/
def screenToDocument (p : Point) (vt : ViewTransform) : Point :=
  ⟨(p.x - vt.x) / vt.scale, (p.y - vt.y) / vt.scale⟩

/-- Shared zoom step of `handleWheel` and `zoom`: scale multiplied or
divided by `factor`, clamped to `[0.1, 10]`, translate solved so that
the cursor-anchored point stays put:
`new = cursor - (cursor - old) * (clamped / oldScale)`. -/
def zoomAt (vt : ViewTransform) (cursor : Point) (factor : ℚ)
    (zoomIn : Bool) : ViewTransform :=
  let newScale := if zoomIn then vt.scale * factor else vt.scale / factor
  let clampedScale := max (1 / 10) (min newScale 10)
  { scale := clampedScale
    x := cursor.x - (cursor.x - vt.x) * (clampedScale / vt.scale)
    y := cursor.y - (cursor.y - vt.y) * (clampedScale / vt.scale) }

/-- `handleWheel`: zoom about the mouse position with factor 1.1
(`deltaY < 0` zooms in). -/
def handleWheel (vt : ViewTransform) (mouse : Point) (zoomIn : Bool) :
    ViewTransform :=
  zoomAt vt mouse (11 / 10) zoomIn

/-- `zoom`: button zoom about the viewport center with factor 1.25. -/
def zoomButton (vt : ViewTransform) (center : Point) (zoomIn : Bool) :
    ViewTransform :=
  zoomAt vt center (5 / 4) zoomIn

/-! ## On-screen z-order (`shapeOrder` / `sortedShapes`) -/

/-- The fixed kind-priority table `shapeOrder` (panel 10, drawing 20,
arrow 25, image 30, bubble 40, text 50). -/
def shapeOrder (s : CanvasShape) : Nat :=
  match s with
  | .panel _ _ _ _ _ _ => 10
  | .drawing _ _ _ _ _ _ => 20
  | .arrow _ _ _ _ _ _ _ => 25
  | .image _ _ _ _ _ _ _ _ _ => 30
  | .bubble _ _ _ _ _ _ _ _ => 40
  | .text _ _ _ _ _ _ _ => 50

/-- `sortedShapes`: `[...shapes].sort((a, b) => order[a.type] -
order[b.type])`. `Array.prototype.sort` with a numeric-key comparator is
a stable sort by that key; modelled by the stable `insertionSort`. -/
def sortedShapes (shapes : List CanvasShape) : List CanvasShape :=
  shapes.insertionSort fun a b => shapeOrder a ≤ shapeOrder b

/-! ## Deterministic compositor (`getLayoutAsImage`) -/

/-- One entry of `ASPECT_RATIO_CONFIG`: the page pixel size. -/
structure CanvasConfig where
  w : ℚ
  h : ℚ
deriving DecidableEq

/-- `ASPECT_RATIO_CONFIG[aspect] || ASPECT_RATIO_CONFIG['A4']`. -/
def canvasConfigOf (aspect : String) : CanvasConfig :=
  if aspect = "A4" then ⟨595, 842⟩
  else if aspect = "竖版" then ⟨600, 800⟩
  else if aspect = "正方形" then ⟨800, 800⟩
  else if aspect = "横版" then ⟨1280, 720⟩
  else ⟨595, 842⟩

/-- The character record fields the compositor reads. -/
structure Character where
  id : String
  name : String
deriving DecidableEq

/-- The static `skeletonConnections` adjacency list. -/
def skeletonConnections : List (String × String) :=
  [("head", "neck"), ("neck", "leftShoulder"), ("neck", "rightShoulder"),
   ("leftShoulder", "leftElbow"), ("leftElbow", "leftHand"),
   ("rightShoulder", "rightElbow"), ("rightElbow", "rightHand"),
   ("neck", "hips"),
   ("hips", "leftHip"), ("hips", "rightHip"),
   ("leftHip", "leftKnee"), ("leftKnee", "leftFoot"),
   ("rightHip", "rightKnee"), ("rightKnee", "rightFoot"),
   ("leftEye", "rightEye"),
   ("nose", "mouth")]

/-- One SVG element emitted into the flattened export, reified as a
structured draw command (the DOM serialisation itself is outside the
embedding). -/
inductive RenderElement
  | panelPolygon (points : List Point)
  | panelNumber (pos : Point) (label : String)
  | skeletonBone (p1 p2 : Point)
  | skeletonJoint (center : Point) (isHead : Bool)
  | poseImage (href : String) (x y width height : ℚ)
  | posePath (strokes : List (List Point))
  | nameLabel (pos : Point) (who : String)
  | commentLabel (pos : Point) (content : String)
  | bubbleOutline (kind : BubbleKind) (tail : Option Point) (x y width height : ℚ)
  | bubbleTextBlock (x y width height : ℚ) (content : String)
  | textRun (x y fontSize : ℚ) (content : String)
deriving DecidableEq

/-- The `shapes.filter(panel).forEach((shape, index) => ...)` loop:
polygon outline plus the faint 1-based ordinal at the polygon centroid.
The index argument threads the running panel ordinal. -/
def panelElements : Nat → List CanvasShape → List RenderElement
  | _, [] => []
  | i, .panel _ pts _ _ _ _ :: rest =>
    RenderElement.panelPolygon pts ::
      RenderElement.panelNumber (getPolygonCentroid pts) (toString (i + 1)) ::
      panelElements (i + 1) rest
  | i, _ :: rest => panelElements i rest

/-- Skeleton pose export: one line per connection whose two endpoints are
present in the data, then one circle per joint (head highlighted). -/
def skeletonPoseElements (data : SkeletonData) : List RenderElement :=
  (skeletonConnections.flatMap fun c =>
    match data.lookup c.1, data.lookup c.2 with
    | some p1, some p2 => [RenderElement.skeletonBone p1 p2]
    | _, _ => []) ++
  data.map fun kp => RenderElement.skeletonJoint kp.2 (kp.1 == "head")

/-- The `shapes.filter(image).forEach(...)` body: pose overlay (skeleton
bones and joints / reference bitmap at reduced opacity / freehand
overlay denormalized into the shape's box), then the owning character's
name label at the bbox center, then the pose comment below the shape. -/
def imageShapeElements (charactersToDraw : List Character)
    (s : CanvasShape) : List RenderElement :=
  match s with
  | .image _ _ characterId _ pose x y w h =>
    (match pose with
     | some (.skeleton _ data _) => skeletonPoseElements data
     | some (.image href) => [RenderElement.poseImage href x y w h]
     | some (.drawing strokes) =>
       [RenderElement.posePath
         (strokes.map fun stroke => stroke.map fun p => ⟨x + p.x * w, y + p.y * h⟩)]
     | none => []) ++
    (match charactersToDraw.find? (fun c => c.id == characterId) with
     | some c =>
       let bbox := getShapeBBox s
       [RenderElement.nameLabel
         ⟨bbox.x + bbox.width / 2, bbox.y + bbox.height / 2⟩ c.name]
     | none => []) ++
    (match pose with
     | some (.skeleton _ _ comment) =>
       if comment = "" then []
       else
         let bbox := getShapeBBox s
         [RenderElement.commentLabel
           ⟨bbox.x + bbox.width / 2, bbox.y + bbox.height + 20⟩
           ("(" ++ comment ++ ")")]
     | _ => [])
  | _ => []

/-- The `shapes.filter(bubble).forEach(...)` body: silhouette path (with
tail data) and the text block inset by 10 on each side. -/
def bubbleElements (s : CanvasShape) : List RenderElement :=
  match s with
  | .bubble _ kind content tail x y w h =>
    [RenderElement.bubbleOutline kind tail x y w h,
     RenderElement.bubbleTextBlock (x + 10) (y + 10) (w - 20) (h - 20) content]
  | _ => []

/-- The `shapes.filter(text).forEach(...)` body. -/
def textElements (s : CanvasShape) : List RenderElement :=
  match s with
  | .text _ content fontSize x y _ _ =>
    [RenderElement.textRun x y fontSize content]
  | _ => []

/-- The flattened export image: fixed page-sized raster with the draw
commands in emission order. -/
structure RenderOutput where
  width : ℚ
  height : ℚ
  elements : List RenderElement
deriving DecidableEq

/-- `getLayoutAsImage` from `PanelEditor.tsx`: a `canvasConfig`-sized
SVG (no view transform applied), drawing panels first, then — when
`includeCharacters` — image shapes with their poses and labels, then
bubbles, then standalone text. -/
def getLayoutAsImage (cfg : CanvasConfig) (shapes : List CanvasShape)
    (includeCharacters : Bool) (charactersToDraw : List Character) :
    RenderOutput :=
  { width := cfg.w
    height := cfg.h
    elements :=
      panelElements 0 (shapes.filter CanvasShape.isPanel) ++
      (if includeCharacters then
        (shapes.filter CanvasShape.isImage).flatMap
          (imageShapeElements charactersToDraw)
      else []) ++
      (shapes.filter CanvasShape.isBubble).flatMap bubbleElements ++
      (shapes.filter CanvasShape.isText).flatMap textElements }

/-! ## Pointer interactions (`handleMouseMove` branches, `handleAddPanelVertex`,
`handleMouseUp`) -/

/-- The `'dragging'` branch of `handleMouseMove`, applied to the dragged
shape: the pointer position minus the recorded grab offset gives the new
bbox origin; `dx`/`dy` is its delta from the stored anchor. Panels have
their vertex list translated and their box recomputed from the moved
vertices; arrows and drawings translate their points; bubbles also move
the tail; image shapes with a skeleton pose translate every joint. -/
def draggedShape (s : CanvasShape) (pos startOffset : Point) : CanvasShape :=
  let newX := pos.x - startOffset.x
  let newY := pos.y - startOffset.y
  let dx := newX - s.xOf
  let dy := newY - s.yOf
  match s with
  | .panel i pts _ _ _ _ =>
    let newPoints := pts.map fun p => ⟨p.x + dx, p.y + dy⟩
    let xs := newPoints.map Point.x
    let ys := newPoints.map Point.y
    .panel i newPoints (qmins xs) (qmins ys)
      (qmaxs xs - qmins xs) (qmaxs ys - qmins ys)
  | .arrow i p0 p1 c w _ _ =>
    .arrow i ⟨p0.x + dx, p0.y + dy⟩ ⟨p1.x + dx, p1.y + dy⟩ c w newX newY
  | .drawing i strokes c w _ _ =>
    .drawing i (strokes.map fun stroke => stroke.map fun p => ⟨p.x + dx, p.y + dy⟩)
      c w newX newY
  | .bubble i kind content tail _ _ w h =>
    .bubble i kind content (tail.map fun t => ⟨t.x + dx, t.y + dy⟩) newX newY w h
  | .image i href cid pidx pose _ _ w h =>
    let movedPose :=
      match pose with
      | some (.skeleton preset data comment) =>
        some (Pose.skeleton preset
          (data.map fun kp => (kp.1, ⟨kp.2.x + dx, kp.2.y + dy⟩)) comment)
      | other => other
    .image i href cid pidx movedPose newX newY w h
  | .text i content fontSize _ _ w h =>
    .text i content fontSize newX newY w h

/-- The four corner resize handles the editor renders
(`['top-left', 'top-right', 'bottom-left', 'bottom-right']`). -/
inductive ResizeHandle
  | topLeft
  | topRight
  | bottomLeft
  | bottomRight
deriving DecidableEq

/-- `handle.includes('right')`. -/
def ResizeHandle.includesRight : ResizeHandle → Bool
  | .topRight => true
  | .bottomRight => true
  | _ => false

/-- `handle.includes('left')`. -/
def ResizeHandle.includesLeft : ResizeHandle → Bool
  | .topLeft => true
  | .bottomLeft => true
  | _ => false

/-- `handle.includes('top')`. -/
def ResizeHandle.includesTop : ResizeHandle → Bool
  | .topLeft => true
  | .topRight => true
  | _ => false

/-- `handle.includes('bottom')`. -/
def ResizeHandle.includesBottom : ResizeHandle → Bool
  | .bottomLeft => true
  | .bottomRight => true
  | _ => false

/-- The box arithmetic of the `'resizing'` branch: each active side is
dragged to the pointer with the opposite side fixed, the new extent
clamped from below by 20 (`Math.max(20, ...)`). Computed against the
`originalShape` box recorded at gesture start. -/
def resizeBox (handle : ResizeHandle) (o : Box) (pos : Point) : Box :=
  let width0 := if handle.includesRight then max 20 (pos.x - o.x) else o.width
  let height0 := if handle.includesBottom then max 20 (pos.y - o.y) else o.height
  let width1 := if handle.includesLeft then max 20 (o.x + o.width - pos.x) else width0
  let x1 := if handle.includesLeft then o.x + o.width - width1 else o.x
  let height1 := if handle.includesTop then max 20 (o.y + o.height - pos.y) else height0
  let y1 := if handle.includesTop then o.y + o.height - height1 else o.y
  ⟨x1, y1, width1, height1⟩

/-- The skeleton rescale of the `'resizing'` branch: each original joint
is mapped to `newOrigin + (p - originalOrigin) * (newSize /
originalSize)` component-wise. -/
def resizeSkeleton (origBox newBox : Box) (data : SkeletonData) : SkeletonData :=
  let scaleX := newBox.width / origBox.width
  let scaleY := newBox.height / origBox.height
  data.map fun kp =>
    (kp.1, ⟨newBox.x + (kp.2.x - origBox.x) * scaleX,
            newBox.y + (kp.2.y - origBox.y) * scaleY⟩)

/-- The `'resizing'` branch applied to the resized shape: the recomputed
box is written to the shape; an image shape whose original snapshot has
positive width and height and whose pose (and the snapshot's pose) is a
skeleton gets its joints rescaled from the snapshot's joint data.
Resizing only targets bubble, image and text shapes (the only kinds
with resize handles); other kinds pass through unchanged. -/
def resizedShape (handle : ResizeHandle) (orig : CanvasShape) (pos : Point)
    (s : CanvasShape) : CanvasShape :=
  let b := resizeBox handle ⟨orig.xOf, orig.yOf, orig.widthOf, orig.heightOf⟩ pos
  match s with
  | .bubble i kind content tail _ _ _ _ =>
    .bubble i kind content tail b.x b.y b.width b.height
  | .text i content fontSize _ _ _ _ =>
    .text i content fontSize b.x b.y b.width b.height
  | .image i href cid pidx pose _ _ _ _ =>
    let newPose :=
      match pose, orig with
      | some (.skeleton preset _ comment),
          .image _ _ _ _ (some (.skeleton _ origData _)) ox oy ow oh =>
        if 0 < ow ∧ 0 < oh then
          some (Pose.skeleton preset
            (resizeSkeleton ⟨ox, oy, ow, oh⟩ b origData) comment)
        else pose
      | _, _ => pose
    .image i href cid pidx newPose b.x b.y b.width b.height
  | other => other

/-- The `'editingPanelVertex'` branch of `handleMouseMove`: the dragged
vertex is overwritten with the pointer position; the stored box fields
are not touched. -/
def movePanelVertex (s : CanvasShape) (vertexIndex : Nat) (pos : Point) :
    CanvasShape :=
  match s with
  | .panel i pts x y w h => .panel i (pts.set vertexIndex pos) x y w h
  | other => other

/-- `handleAddPanelVertex`: a new vertex at the midpoint of edge
`edgeIndex` is spliced in after that edge's start vertex; the stored box
fields are not touched. -/
def addPanelVertex (s : CanvasShape) (edgeIndex : Nat) : CanvasShape :=
  match s with
  | .panel i pts x y w h =>
    let p1 := pts.getD edgeIndex ⟨0, 0⟩
    let p2 := pts.getD ((edgeIndex + 1) % pts.length) ⟨0, 0⟩
    let newPoint : Point := ⟨(p1.x + p2.x) / 2, (p1.y + p2.y) / 2⟩
    .panel i (pts.insertIdx (edgeIndex + 1) newPoint) x y w h
  | other => other

/-- The shape list committed by `handleMouseUp` at the end of a gesture
on the shape with id `targetId`: a bubble or panel whose stored width or
height is below 10 is filtered out; otherwise the live list is committed
unchanged. -/
def handleMouseUpCommit (shapes : List CanvasShape) (targetId : String) :
    List CanvasShape :=
  match shapes.find? (fun s => s.idOf == targetId) with
  | some shape =>
    if (shape.isBubble = true ∨ shape.isPanel = true) ∧
        (shape.widthOf < 10 ∨ shape.heightOf < 10) then
      shapes.filter fun s => s.idOf != shape.idOf
    else shapes
  | none => shapes

/-- The tight bounding box of a vertex list (the box `getShapeBBox`
computes for a panel), used to state the panel box invariant. -/
def tightBBox (pts : List Point) : Box :=
  let xs := pts.map Point.x
  let ys := pts.map Point.y
  ⟨qmins xs, qmins ys, qmaxs xs - qmins xs, qmaxs ys - qmins ys⟩

/-! ## History lemmas -/

theorem wf_restoreAt (p : Page) (i : Nat) (h : i < p.shapesHistory.length) :
    (restoreAt p i).WF :=
  ⟨h, rfl⟩

theorem restoreAt_self (p : Page) (h : p.WF) :
    restoreAt p p.shapesHistoryIndex = p := by
  have h2 := h.2
  cases p with
  | mk s hist i =>
    simp only [restoreAt] at *
    rw [← h2]

theorem restoreAt_restoreAt (p : Page) (i j : Nat) :
    restoreAt (restoreAt p i) j = restoreAt p j := rfl

theorem handleUndo_restore (p : Page) (h : 0 < p.shapesHistoryIndex) :
    handleUndo p = restoreAt p (p.shapesHistoryIndex - 1) := by
  unfold handleUndo restoreAt
  rw [if_neg (by omega)]

theorem handleUndo_noop (p : Page) (h : p.shapesHistoryIndex = 0) :
    handleUndo p = p := by
  unfold handleUndo
  rw [if_pos (by omega)]

theorem handleRedo_restore (p : Page)
    (h : p.shapesHistoryIndex + 1 < p.shapesHistory.length) :
    handleRedo p = restoreAt p (p.shapesHistoryIndex + 1) := by
  unfold handleRedo restoreAt
  rw [if_neg (by omega)]

theorem handleRedo_noop (p : Page)
    (h : p.shapesHistory.length ≤ p.shapesHistoryIndex + 1) :
    handleRedo p = p := by
  unfold handleRedo
  rw [if_pos (by omega)]

theorem undo_iterate (k : Nat) (p : Page) (hwf : p.WF)
    (hk : k ≤ p.shapesHistoryIndex) :
    handleUndo^[k] p = restoreAt p (p.shapesHistoryIndex - k) := by
  induction k generalizing p with
  | zero => simpa using (restoreAt_self p hwf).symm
  | succ k ih =>
    have hlt : 0 < p.shapesHistoryIndex := by omega
    have hwf1 : (restoreAt p (p.shapesHistoryIndex - 1)).WF :=
      wf_restoreAt p _ (by have := hwf.1; omega)
    have hk1 : k ≤ (restoreAt p (p.shapesHistoryIndex - 1)).shapesHistoryIndex := by
      simp only [restoreAt]
      omega
    rw [Function.iterate_succ_apply, handleUndo_restore p hlt,
      ih (restoreAt p (p.shapesHistoryIndex - 1)) hwf1 hk1, restoreAt_restoreAt]
    congr 1
    simp only [restoreAt]
    omega

theorem redo_iterate (k : Nat) (p : Page) (hwf : p.WF)
    (hk : p.shapesHistoryIndex + k < p.shapesHistory.length) :
    handleRedo^[k] p = restoreAt p (p.shapesHistoryIndex + k) := by
  induction k generalizing p with
  | zero => simpa using (restoreAt_self p hwf).symm
  | succ k ih =>
    have hlt : p.shapesHistoryIndex + 1 < p.shapesHistory.length := by omega
    have hwf1 := wf_restoreAt p (p.shapesHistoryIndex + 1) hlt
    have hk1 : (restoreAt p (p.shapesHistoryIndex + 1)).shapesHistoryIndex + k
        < (restoreAt p (p.shapesHistoryIndex + 1)).shapesHistory.length := by
      simp only [restoreAt]
      omega
    rw [Function.iterate_succ_apply, handleRedo_restore p hlt,
      ih (restoreAt p (p.shapesHistoryIndex + 1)) hwf1 hk1, restoreAt_restoreAt]
    congr 1
    simp only [restoreAt]
    omega

theorem handleShapesChange_true (p : Page) (s : List CanvasShape)
    (hwf : p.WF) :
    handleShapesChange p s true =
      { shapes := s
        shapesHistory := p.shapesHistory.take (p.shapesHistoryIndex + 1) ++ [s]
        shapesHistoryIndex := p.shapesHistoryIndex + 1 } := by
  have hlen : (p.shapesHistory.take (p.shapesHistoryIndex + 1)).length
      = p.shapesHistoryIndex + 1 := by
    have := hwf.1
    simp only [List.length_take]
    omega
  unfold handleShapesChange
  simp [hlen]

theorem commit_WF (p : Page) (s : List CanvasShape) (hwf : p.WF) :
    (handleShapesChange p s true).WF := by
  rw [handleShapesChange_true p s hwf]
  have hlen : (p.shapesHistory.take (p.shapesHistoryIndex + 1)).length
      = p.shapesHistoryIndex + 1 := by
    have := hwf.1
    simp only [List.length_take]
    omega
  constructor
  · simp [hlen]
  · simp only [List.getD_eq_getElem?_getD]
    rw [List.getElem?_append_right (by omega), hlen]
    simp

theorem commit_index (p : Page) (s : List CanvasShape) (hwf : p.WF) :
    (handleShapesChange p s true).shapesHistoryIndex
      = p.shapesHistoryIndex + 1 := by
  rw [handleShapesChange_true p s hwf]

theorem commit_last (p : Page) (s : List CanvasShape) (hwf : p.WF) :
    (handleShapesChange p s true).shapesHistory.length
      = (handleShapesChange p s true).shapesHistoryIndex + 1 := by
  rw [handleShapesChange_true p s hwf]
  have := hwf.1
  simp only [List.length_append, List.length_take, List.length_singleton]
  omega

theorem commitAll_cons (p : Page) (c : List CanvasShape)
    (cs : List (List CanvasShape)) :
    commitAll p (c :: cs) = commitAll (handleShapesChange p c true) cs := rfl

theorem commitAll_WF_index (cs : List (List CanvasShape)) (p : Page)
    (hwf : p.WF) :
    (commitAll p cs).WF ∧
      (commitAll p cs).shapesHistoryIndex
        = p.shapesHistoryIndex + cs.length := by
  induction cs generalizing p with
  | nil => simpa [commitAll] using hwf
  | cons c cs ih =>
    rw [commitAll_cons]
    obtain ⟨a, b⟩ := ih (handleShapesChange p c true) (commit_WF p c hwf)
    refine ⟨a, ?_⟩
    rw [b, commit_index p c hwf]
    simp only [List.length_cons]
    omega

theorem commitAll_last (cs : List (List CanvasShape)) (p : Page)
    (hwf : p.WF) (hne : cs ≠ []) :
    (commitAll p cs).shapesHistory.length
      = (commitAll p cs).shapesHistoryIndex + 1 := by
  induction cs generalizing p with
  | nil => exact absurd rfl hne
  | cons c cs ih =>
    rw [commitAll_cons]
    rcases cs with _ | ⟨d, ds⟩
    · simpa [commitAll] using commit_last p c hwf
    · exact ih (handleShapesChange p c true) (commit_WF p c hwf) (by simp)

/-- C1: for any well-formed page and any sequence of n commits, undoing
n times and then redoing n times returns the page (and hence the live
shape list) to the state after the last commit; after every
intermediate undo the live shape list is exactly the historical
snapshot at the new index, and likewise for every intermediate redo;
undo is a no-op at index 0 and redo is a no-op at the last index. -/
theorem undo_redo_inverse_law (p : Page) (hwf : p.WF)
    (cs : List (List CanvasShape)) :
    (handleRedo^[cs.length] (handleUndo^[cs.length] (commitAll p cs))
      = commitAll p cs) ∧
    (∀ k, k ≤ cs.length →
      (handleUndo^[k] (commitAll p cs)).shapes
        = (commitAll p cs).shapesHistory.getD
            ((commitAll p cs).shapesHistoryIndex - k) [] ∧
      (handleUndo^[k] (commitAll p cs)).shapesHistoryIndex
        = (commitAll p cs).shapesHistoryIndex - k) ∧
    (∀ k, k ≤ cs.length →
      (handleRedo^[k] (handleUndo^[cs.length] (commitAll p cs))).shapes
        = (commitAll p cs).shapesHistory.getD
            ((commitAll p cs).shapesHistoryIndex - cs.length + k) []) ∧
    (handleUndo
        (handleUndo^[(commitAll p cs).shapesHistoryIndex] (commitAll p cs))
      = handleUndo^[(commitAll p cs).shapesHistoryIndex] (commitAll p cs)) ∧
    (cs ≠ [] → handleRedo (commitAll p cs) = commitAll p cs) := by
  obtain ⟨hq, hidx⟩ := commitAll_WF_index cs p hwf
  have hn : cs.length ≤ (commitAll p cs).shapesHistoryIndex := by omega
  refine ⟨?_, ?_, ?_, ?_, ?_⟩
  · rw [undo_iterate cs.length (commitAll p cs) hq hn]
    have hlt : ((commitAll p cs).shapesHistoryIndex - cs.length)
        < (commitAll p cs).shapesHistory.length := by
      have := hq.1
      omega
    rw [redo_iterate cs.length _ (wf_restoreAt _ _ hlt)
      (by simp only [restoreAt]; have := hq.1; omega), restoreAt_restoreAt]
    have : (restoreAt (commitAll p cs)
        ((commitAll p cs).shapesHistoryIndex - cs.length)).shapesHistoryIndex
          + cs.length = (commitAll p cs).shapesHistoryIndex := by
      simp only [restoreAt]
      omega
    rw [this]
    exact restoreAt_self _ hq
  · intro k hk
    rw [undo_iterate k (commitAll p cs) hq (le_trans hk hn)]
    exact ⟨rfl, rfl⟩
  · intro k hk
    rw [undo_iterate cs.length (commitAll p cs) hq hn]
    have hlt : (restoreAt (commitAll p cs)
        ((commitAll p cs).shapesHistoryIndex - cs.length)).shapesHistoryIndex + k
          < (restoreAt (commitAll p cs)
              ((commitAll p cs).shapesHistoryIndex - cs.length)).shapesHistory.length := by
      simp only [restoreAt]
      have := hq.1
      omega
    rw [redo_iterate k _ (wf_restoreAt _ _ (by simp only [restoreAt] at hlt ⊢; have := hq.1; omega)) hlt,
      restoreAt_restoreAt]
    rfl
  · rw [undo_iterate (commitAll p cs).shapesHistoryIndex (commitAll p cs) hq le_rfl]
    exact handleUndo_noop _ (by simp only [restoreAt]; omega)
  · intro hne
    exact handleRedo_noop _ (le_of_eq (commitAll_last cs p hwf hne))

/-- Witness for C1 at a concrete page: the empty initial page, two
commits, full undo and redo. -/
theorem undo_redo_inverse_law_witness :
    initialPage.WF ∧
    (handleRedo^[2] (handleUndo^[2] (commitAll initialPage
        [[CanvasShape.text "1" "a" 30 0 0 200 40],
         [CanvasShape.text "1" "a" 30 0 0 200 40,
          CanvasShape.text "2" "b" 30 5 5 200 40]]))
      = commitAll initialPage
        [[CanvasShape.text "1" "a" 30 0 0 200 40],
         [CanvasShape.text "1" "a" 30 0 0 200 40,
          CanvasShape.text "2" "b" 30 5 5 200 40]]) := by
  constructor
  · exact ⟨by decide, rfl⟩
  · exact (undo_redo_inverse_law initialPage ⟨by decide, rfl⟩
      [[CanvasShape.text "1" "a" 30 0 0 200 40],
       [CanvasShape.text "1" "a" 30 0 0 200 40,
        CanvasShape.text "2" "b" 30 5 5 200 40]]).1

theorem commit_length (q : Page)
    (hlast : q.shapesHistoryIndex + 1 = q.shapesHistory.length)
    (s : List CanvasShape) :
    (handleShapesChange q s true).shapesHistory.length
      = q.shapesHistory.length + 1 := by
  unfold handleShapesChange
  simp only [if_true, List.length_append, List.length_take,
    List.length_singleton]
  omega

theorem updateInPlace_index (q : Page) (u : List CanvasShape) :
    (handleShapesChange q u false).shapesHistoryIndex
      = q.shapesHistoryIndex := rfl

theorem updateInPlace_length (q : Page) (u : List CanvasShape) :
    (handleShapesChange q u false).shapesHistory.length
      = q.shapesHistory.length := by
  unfold handleShapesChange
  simp

theorem updateInPlace_getD_ne (q : Page) (u : List CanvasShape) (j : Nat)
    (hj : j ≠ q.shapesHistoryIndex) :
    (handleShapesChange q u false).shapesHistory.getD j []
      = q.shapesHistory.getD j [] := by
  unfold handleShapesChange
  simp only [Bool.false_eq_true, if_false, List.getD_eq_getElem?_getD]
  rw [List.getElem?_set_ne (by omega)]

/-- C2 counterexample: from a page with a two-entry redo tail (history
`[[], [sA], [sB]]`, index 0), one `updateInPlace` followed by one commit
leaves the history at length 2, not the claimed 3 + 1 = 4: the commit
truncated the redo tail. -/
theorem drag_coalescing_counterexample :
    (Page.WF ⟨[], [[],
        [CanvasShape.text "1" "a" 30 0 0 200 40],
        [CanvasShape.text "2" "b" 30 0 0 200 40]], 0⟩) ∧
    (handleShapesChange
        (handleShapesChange ⟨[], [[],
          [CanvasShape.text "1" "a" 30 0 0 200 40],
          [CanvasShape.text "2" "b" 30 0 0 200 40]], 0⟩
          [CanvasShape.text "3" "u" 30 0 0 200 40] false)
        [CanvasShape.text "4" "c" 30 0 0 200 40]
        true).shapesHistory.length = 2 ∧
    (2 : Nat) ≠ 3 + 1 := by
  refine ⟨⟨by decide, rfl⟩, rfl, by decide⟩

/-- C2 amended: a gesture of k `updateInPlace` calls changes neither the
history index, nor the history length, nor any snapshot other than the
one at the current index; and provided the index is at the last history
entry (no redo tail), the pointer-up commit grows the history by exactly
one entry. (With a redo tail present, the commit truncates it first, as
the counterexample shows.) -/
theorem drag_coalescing_amended (p : Page)
    (hlast : p.shapesHistoryIndex + 1 = p.shapesHistory.length)
    (us : List (List CanvasShape)) (s : List CanvasShape) :
    let r := us.foldl (fun q u => handleShapesChange q u false) p
    (r.shapesHistoryIndex = p.shapesHistoryIndex ∧
     r.shapesHistory.length = p.shapesHistory.length ∧
     (handleShapesChange r s true).shapesHistory.length
       = p.shapesHistory.length + 1) ∧
    (∀ (q : Page) (u : List CanvasShape),
      (handleShapesChange q u false).shapesHistoryIndex
          = q.shapesHistoryIndex ∧
      (handleShapesChange q u false).shapesHistory.length
          = q.shapesHistory.length ∧
      ∀ j, j ≠ q.shapesHistoryIndex →
        (handleShapesChange q u false).shapesHistory.getD j []
          = q.shapesHistory.getD j []) := by
  have hfold : ∀ (us : List (List CanvasShape)) (q : Page),
      (us.foldl (fun q u => handleShapesChange q u false) q).shapesHistoryIndex
          = q.shapesHistoryIndex ∧
      (us.foldl (fun q u => handleShapesChange q u false) q).shapesHistory.length
          = q.shapesHistory.length := by
    intro us
    induction us with
    | nil => intro q; exact ⟨rfl, rfl⟩
    | cons u us ih =>
      intro q
      obtain ⟨a, b⟩ := ih (handleShapesChange q u false)
      exact ⟨a.trans (updateInPlace_index q u),
        b.trans (updateInPlace_length q u)⟩
  obtain ⟨hidx, hlen⟩ := hfold us p
  refine ⟨⟨hidx, hlen, ?_⟩, fun q u =>
    ⟨updateInPlace_index q u, updateInPlace_length q u,
     fun j hj => updateInPlace_getD_ne q u j hj⟩⟩
  rw [commit_length _ (by rw [hidx, hlen]; exact hlast) s, hlen]

/-- Witness for C2's amended theorem: the initial page, two in-place
updates, one commit. -/
theorem drag_coalescing_amended_witness :
    (([[CanvasShape.text "1" "a" 30 0 0 200 40],
       [CanvasShape.text "1" "b" 30 0 0 200 40]].foldl
        (fun q u => handleShapesChange q u false)
        initialPage).shapesHistory.length
      = initialPage.shapesHistory.length) ∧
    ((handleShapesChange
        ([[CanvasShape.text "1" "a" 30 0 0 200 40],
          [CanvasShape.text "1" "b" 30 0 0 200 40]].foldl
          (fun q u => handleShapesChange q u false) initialPage)
        [CanvasShape.text "1" "c" 30 0 0 200 40]
        true).shapesHistory.length
      = initialPage.shapesHistory.length + 1) :=
  let h := drag_coalescing_amended initialPage rfl
    [[CanvasShape.text "1" "a" 30 0 0 200 40],
     [CanvasShape.text "1" "b" 30 0 0 200 40]]
    [CanvasShape.text "1" "c" 30 0 0 200 40]
  ⟨h.1.2.1, h.1.2.2⟩

theorem zoomAt_scale_bounds (vt : ViewTransform) (cursor : Point)
    (factor : ℚ) (zoomIn : Bool) :
    1 / 10 ≤ (zoomAt vt cursor factor zoomIn).scale ∧
      (zoomAt vt cursor factor zoomIn).scale ≤ 10 := by
  unfold zoomAt
  exact ⟨le_max_left _ _, max_le (by norm_num) (min_le_right _ _)⟩

theorem zoomAt_stable (vt : ViewTransform) (cursor : Point) (factor : ℚ)
    (zoomIn : Bool) (hscale : 0 < vt.scale) :
    screenToDocument cursor (zoomAt vt cursor factor zoomIn)
      = screenToDocument cursor vt := by
  have hpos : 0 < (zoomAt vt cursor factor zoomIn).scale :=
    lt_of_lt_of_le (by norm_num) (zoomAt_scale_bounds vt cursor factor zoomIn).1
  unfold screenToDocument
  unfold zoomAt at hpos ⊢
  simp only [Point.mk.injEq]
  constructor <;> (field_simp; ring)

/-- C7: wheel zoom multiplies or divides the scale by 1.1 and button
zoom by 1.25, both clamped to `[0.1, 10]`; the new translate is
`cursor - (cursor - oldTranslate) * (newScale / oldScale)`; consequently
the document point under the cursor is unchanged by the zoom (exactly,
over `ℚ`). -/
theorem zoom_about_cursor (vt : ViewTransform) (mouse center : Point)
    (zoomIn : Bool) (hscale : 0 < vt.scale) :
    ((handleWheel vt mouse zoomIn).scale
        = max (1 / 10) (min (if zoomIn then vt.scale * (11 / 10)
            else vt.scale / (11 / 10)) 10) ∧
      (zoomButton vt center zoomIn).scale
        = max (1 / 10) (min (if zoomIn then vt.scale * (5 / 4)
            else vt.scale / (5 / 4)) 10)) ∧
    (1 / 10 ≤ (handleWheel vt mouse zoomIn).scale ∧
      (handleWheel vt mouse zoomIn).scale ≤ 10 ∧
      1 / 10 ≤ (zoomButton vt center zoomIn).scale ∧
      (zoomButton vt center zoomIn).scale ≤ 10) ∧
    ((handleWheel vt mouse zoomIn).x
        = mouse.x - (mouse.x - vt.x)
            * ((handleWheel vt mouse zoomIn).scale / vt.scale) ∧
      (handleWheel vt mouse zoomIn).y
        = mouse.y - (mouse.y - vt.y)
            * ((handleWheel vt mouse zoomIn).scale / vt.scale)) ∧
    screenToDocument mouse (handleWheel vt mouse zoomIn)
      = screenToDocument mouse vt ∧
    screenToDocument center (zoomButton vt center zoomIn)
      = screenToDocument center vt := by
  obtain ⟨w1, w2⟩ := zoomAt_scale_bounds vt mouse (11 / 10) zoomIn
  obtain ⟨b1, b2⟩ := zoomAt_scale_bounds vt center (5 / 4) zoomIn
  exact ⟨⟨rfl, rfl⟩, ⟨w1, w2, b1, b2⟩, ⟨rfl, rfl⟩,
    zoomAt_stable vt mouse (11 / 10) zoomIn hscale,
    zoomAt_stable vt center (5 / 4) zoomIn hscale⟩

/-- Witness for C7 at a concrete transform and cursor. -/
theorem zoom_about_cursor_witness :
    screenToDocument ⟨100, 50⟩ (handleWheel ⟨1, 20, 30⟩ ⟨100, 50⟩ true)
      = screenToDocument ⟨100, 50⟩ ⟨1, 20, 30⟩ ∧
    screenToDocument ⟨7, 9⟩ (zoomButton ⟨1, 20, 30⟩ ⟨7, 9⟩ false)
      = screenToDocument ⟨7, 9⟩ ⟨1, 20, 30⟩ :=
  ⟨(zoom_about_cursor ⟨1, 20, 30⟩ ⟨100, 50⟩ ⟨7, 9⟩ true (by norm_num)).2.2.2.1,
   (zoom_about_cursor ⟨1, 20, 30⟩ ⟨100, 50⟩ ⟨7, 9⟩ false (by norm_num)).2.2.2.2⟩

/-- C10: for every corner handle and every pointer position, the box
produced by the resize step has width and height at least 20, and so
does the bubble, image or text shape the resize is applied to. -/
theorem resize_minimum_size (handle : ResizeHandle) (o : Box) (pos : Point)
    (orig s : CanvasShape)
    (hkind : s.isBubble = true ∨ s.isImage = true ∨ s.isText = true) :
    (20 ≤ (resizeBox handle o pos).width ∧
      20 ≤ (resizeBox handle o pos).height) ∧
    (20 ≤ (resizedShape handle orig pos s).widthOf ∧
      20 ≤ (resizedShape handle orig pos s).heightOf) := by
  have hbox : ∀ (b : Box),
      20 ≤ (resizeBox handle b pos).width ∧
        20 ≤ (resizeBox handle b pos).height := by
    intro b
    cases handle <;>
      simp [resizeBox, ResizeHandle.includesRight, ResizeHandle.includesLeft,
        ResizeHandle.includesTop, ResizeHandle.includesBottom]
  refine ⟨hbox o, ?_⟩
  obtain ⟨hw, hh⟩ := hbox ⟨orig.xOf, orig.yOf, orig.widthOf, orig.heightOf⟩
  cases s with
  | bubble i kind content tail x y w h =>
    simpa [resizedShape, CanvasShape.widthOf, CanvasShape.heightOf]
      using ⟨hw, hh⟩
  | text i content fontSize x y w h =>
    simpa [resizedShape, CanvasShape.widthOf, CanvasShape.heightOf]
      using ⟨hw, hh⟩
  | image i href cid pidx pose x y w h =>
    simpa [resizedShape, CanvasShape.widthOf, CanvasShape.heightOf]
      using ⟨hw, hh⟩
  | panel i pts x y w h => simp [CanvasShape.isBubble, CanvasShape.isImage,
      CanvasShape.isText] at hkind
  | drawing i strokes c sw x y => simp [CanvasShape.isBubble,
      CanvasShape.isImage, CanvasShape.isText] at hkind
  | arrow i p0 p1 c sw x y => simp [CanvasShape.isBubble,
      CanvasShape.isImage, CanvasShape.isText] at hkind

/-- Witness for C10 at a concrete resize: top-left handle dragged far
past the opposite corner of a small bubble. -/
theorem resize_minimum_size_witness :
    20 ≤ (resizedShape ResizeHandle.topLeft
        (CanvasShape.bubble "b" BubbleKind.rounded "" none 0 0 30 30)
        ⟨1000, 1000⟩
        (CanvasShape.bubble "b" BubbleKind.rounded "" none 0 0 30 30)).widthOf ∧
    20 ≤ (resizedShape ResizeHandle.topLeft
        (CanvasShape.bubble "b" BubbleKind.rounded "" none 0 0 30 30)
        ⟨1000, 1000⟩
        (CanvasShape.bubble "b" BubbleKind.rounded "" none 0 0 30 30)).heightOf :=
  (resize_minimum_size ResizeHandle.topLeft ⟨0, 0, 30, 30⟩ ⟨1000, 1000⟩
    (CanvasShape.bubble "b" BubbleKind.rounded "" none 0 0 30 30)
    (CanvasShape.bubble "b" BubbleKind.rounded "" none 0 0 30 30)
    (Or.inl rfl)).2

/-- C8: `getPolygonCentroid` returns the bounding-box center for fewer
than 3 points or when the signed area is numerically degenerate
(`|area| < 1e-6`), and the signed-area-weighted centroid otherwise; on
the square `(0,0),(10,0),(10,10),(0,10)` it returns exactly `(5,5)`. -/
theorem centroid_fallback :
    (∀ pts : List Point, pts.length < 3 →
      getPolygonCentroid pts = getBBoxCenter pts) ∧
    (∀ pts : List Point, |signedArea pts| < 1 / 1000000 →
      getPolygonCentroid pts = getBBoxCenter pts) ∧
    (∀ pts : List Point, 3 ≤ pts.length → 1 / 1000000 ≤ |signedArea pts| →
      getPolygonCentroid pts = weightedCentroid pts) ∧
    getPolygonCentroid [⟨0, 0⟩, ⟨10, 0⟩, ⟨10, 10⟩, ⟨0, 10⟩] = ⟨5, 5⟩ := by
  have hbody : ∀ pts : List Point, ¬ pts.length < 3 →
      getPolygonCentroid pts
        = if |signedArea pts| < 1 / 1000000 then getBBoxCenter pts
          else weightedCentroid pts := by
    intro pts h3
    unfold getPolygonCentroid
    rw [if_neg h3]
  refine ⟨?_, ?_, ?_, ?_⟩
  · intro pts h
    simp [getPolygonCentroid, h]
  · intro pts h
    by_cases h3 : pts.length < 3
    · simp [getPolygonCentroid, h3]
    · rw [hbody pts h3, if_pos h]
  · intro pts h3 hA
    rw [hbody pts (by omega), if_neg (not_lt.mpr hA)]
  · rw [hbody _ (by norm_num), if_neg (by
      norm_num [signedArea, cyclicPairs, List.rotate])]
    norm_num [weightedCentroid, signedArea, cyclicPairs, List.rotate,
      Point.mk.injEq]

/-- Witness for C8: a 2-point list and a collinear 3-point list hit the
fallback; the square hits the weighted formula. -/
theorem centroid_fallback_witness :
    getPolygonCentroid [⟨0, 0⟩, ⟨8, 2⟩]
      = getBBoxCenter [⟨0, 0⟩, ⟨8, 2⟩] ∧
    getPolygonCentroid [⟨0, 0⟩, ⟨5, 5⟩, ⟨10, 10⟩]
      = getBBoxCenter [⟨0, 0⟩, ⟨5, 5⟩, ⟨10, 10⟩] ∧
    getPolygonCentroid [⟨0, 0⟩, ⟨10, 0⟩, ⟨10, 10⟩, ⟨0, 10⟩]
      = weightedCentroid [⟨0, 0⟩, ⟨10, 0⟩, ⟨10, 10⟩, ⟨0, 10⟩] :=
  ⟨centroid_fallback.1 _ (by norm_num),
   centroid_fallback.2.1 _ (by norm_num [signedArea, cyclicPairs, List.rotate]),
   centroid_fallback.2.2.1 _ (by norm_num)
     (by norm_num [signedArea, cyclicPairs, List.rotate])⟩

/-- C6: at pointer-up, when the gesture's target shape is found and is a
bubble or panel whose stored width or height is below 10, the committed
list is the live list with every shape of that id removed; otherwise
the live list is committed unchanged. -/
theorem minimum_size_discard (shapes : List CanvasShape) (targetId : String)
    (s : CanvasShape)
    (hfind : shapes.find? (fun t => t.idOf == targetId) = some s) :
    ((s.isBubble = true ∨ s.isPanel = true) ∧
        (s.widthOf < 10 ∨ s.heightOf < 10) →
      handleMouseUpCommit shapes targetId
          = shapes.filter (fun t => t.idOf != s.idOf) ∧
      ∀ t ∈ handleMouseUpCommit shapes targetId, t.idOf ≠ s.idOf) ∧
    (¬ ((s.isBubble = true ∨ s.isPanel = true) ∧
        (s.widthOf < 10 ∨ s.heightOf < 10)) →
      handleMouseUpCommit shapes targetId = shapes) := by
  have hcommit : handleMouseUpCommit shapes targetId
      = if (s.isBubble = true ∨ s.isPanel = true) ∧
            (s.widthOf < 10 ∨ s.heightOf < 10) then
          shapes.filter (fun t => t.idOf != s.idOf)
        else shapes := by
    unfold handleMouseUpCommit
    rw [hfind]
  constructor
  · intro hcond
    rw [hcommit, if_pos hcond]
    refine ⟨rfl, ?_⟩
    intro t ht
    have := List.of_mem_filter ht
    simpa using this
  · intro hcond
    rw [hcommit, if_neg hcond]

/-- Witness for C6: a 5-unit-wide bubble is discarded at pointer-up. -/
theorem minimum_size_discard_witness :
    handleMouseUpCommit
        [CanvasShape.panel "p" [⟨0, 0⟩, ⟨100, 0⟩, ⟨100, 100⟩, ⟨0, 100⟩] 0 0 100 100,
         CanvasShape.bubble "b" BubbleKind.rounded "" none 0 0 5 40] "b"
      = [CanvasShape.panel "p" [⟨0, 0⟩, ⟨100, 0⟩, ⟨100, 100⟩, ⟨0, 100⟩] 0 0 100 100] ∧
    ∀ t ∈ handleMouseUpCommit
        [CanvasShape.panel "p" [⟨0, 0⟩, ⟨100, 0⟩, ⟨100, 100⟩, ⟨0, 100⟩] 0 0 100 100,
         CanvasShape.bubble "b" BubbleKind.rounded "" none 0 0 5 40] "b",
      t.idOf ≠ "b" := by
  have h := minimum_size_discard
    [CanvasShape.panel "p" [⟨0, 0⟩, ⟨100, 0⟩, ⟨100, 100⟩, ⟨0, 100⟩] 0 0 100 100,
     CanvasShape.bubble "b" BubbleKind.rounded "" none 0 0 5 40] "b"
    (CanvasShape.bubble "b" BubbleKind.rounded "" none 0 0 5 40)
    rfl
  obtain ⟨h1, h2⟩ := h.1 (by
    refine ⟨Or.inl rfl, Or.inl ?_⟩
    norm_num [CanvasShape.widthOf])
  refine ⟨?_, h2⟩
  rw [h1]
  rfl

/-- C5: for an image shape with a skeleton pose, a drag that moves the
shape's anchor by `(dx, dy)` moves every joint by exactly `(dx, dy)`;
and a resize, computed against the snapshot recorded at gesture start,
maps every original joint `p` to
`newOrigin + (p - originalOrigin) * (newSize / originalSize)`
component-wise, provided the original width and height are positive. -/
theorem skeleton_pose_propagation (i href cid : String) (pidx : Int)
    (preset : SkeletonPreset) (data : SkeletonData) (comment : String)
    (x y w h : ℚ) (pos off : Point) (handle : ResizeHandle)
    (origData : SkeletonData) (opreset : SkeletonPreset) (ocomment : String)
    (ox oy ow oh : ℚ) (hw : 0 < ow) (hh : 0 < oh) :
    (draggedShape
        (CanvasShape.image i href cid pidx
          (some (Pose.skeleton preset data comment)) x y w h) pos off
      = CanvasShape.image i href cid pidx
          (some (Pose.skeleton preset
            (data.map fun kp =>
              (kp.1, ⟨kp.2.x + (pos.x - off.x - x), kp.2.y + (pos.y - off.y - y)⟩))
            comment))
          (x + (pos.x - off.x - x)) (y + (pos.y - off.y - y)) w h) ∧
    (resizedShape handle
        (CanvasShape.image i href cid pidx
          (some (Pose.skeleton opreset origData ocomment)) ox oy ow oh) pos
        (CanvasShape.image i href cid pidx
          (some (Pose.skeleton preset data comment)) x y w h)
      = (let b := resizeBox handle ⟨ox, oy, ow, oh⟩ pos
         CanvasShape.image i href cid pidx
          (some (Pose.skeleton preset
            (origData.map fun kp =>
              (kp.1, ⟨b.x + (kp.2.x - ox) * (b.width / ow),
                      b.y + (kp.2.y - oy) * (b.height / oh)⟩))
            comment))
          b.x b.y b.width b.height)) := by
  constructor
  · have hx : x + (pos.x - off.x - x) = pos.x - off.x := by ring
    have hy : y + (pos.y - off.y - y) = pos.y - off.y := by ring
    rw [hx, hy]
    rfl
  · simp only [resizedShape, CanvasShape.xOf, CanvasShape.yOf,
      CanvasShape.widthOf, CanvasShape.heightOf]
    rw [if_pos ⟨hw, hh⟩]
    rfl

/-- Witness for C5: a concrete 100×200 image with a two-joint skeleton,
dragged and resized. -/
theorem skeleton_pose_propagation_witness :
    (0 : ℚ) < 100 ∧ (0 : ℚ) < 200 ∧
    (draggedShape
        (CanvasShape.image "i" "data:x" "c" 0
          (some (Pose.skeleton SkeletonPreset.full
            [("head", ⟨50, 30⟩), ("neck", ⟨50, 60⟩)] "")) 0 0 100 200)
        ⟨40, 50⟩ ⟨10, 20⟩
      = CanvasShape.image "i" "data:x" "c" 0
          (some (Pose.skeleton SkeletonPreset.full
            [("head", ⟨50 + (40 - 10 - 0), 30 + (50 - 20 - 0)⟩),
             ("neck", ⟨50 + (40 - 10 - 0), 60 + (50 - 20 - 0)⟩)] ""))
          (0 + (40 - 10 - 0)) (0 + (50 - 20 - 0)) 100 200) := by
  refine ⟨by norm_num, by norm_num, ?_⟩
  have h := (skeleton_pose_propagation "i" "data:x" "c" 0
    SkeletonPreset.full [("head", ⟨50, 30⟩), ("neck", ⟨50, 60⟩)] ""
    0 0 100 200 ⟨40, 50⟩ ⟨10, 20⟩ ResizeHandle.bottomRight
    [("head", ⟨50, 30⟩)] SkeletonPreset.full "" 0 0 100 200
    (by norm_num) (by norm_num)).1
  simpa using h

/-- C9 counterexample: dragging vertex 0 of a tight 10×10 panel out to
`(50, 50)` leaves the stored box fields at `{0, 0, 10, 10}`, which is
not the tight bounding box `{0, 0, 50, 50}` of the new vertex list. -/
theorem panel_bbox_counterexample :
    (movePanelVertex
        (CanvasShape.panel "p" [⟨0, 0⟩, ⟨10, 0⟩, ⟨10, 10⟩, ⟨0, 10⟩] 0 0 10 10)
        0 ⟨50, 50⟩
      = CanvasShape.panel "p" [⟨50, 50⟩, ⟨10, 0⟩, ⟨10, 10⟩, ⟨0, 10⟩] 0 0 10 10) ∧
    tightBBox [⟨50, 50⟩, ⟨10, 0⟩, ⟨10, 10⟩, ⟨0, 10⟩] = ⟨0, 0, 50, 50⟩ ∧
    (Box.mk 0 0 10 10 ≠ Box.mk 0 0 50 50) := by
  refine ⟨rfl, ?_, ?_⟩
  · norm_num [tightBBox, qmins, qmaxs, Box.mk.injEq]
  · simp only [Box.mk.injEq, ne_eq]
    norm_num

/-- C9 amended: dragging a whole panel recomputes the stored box as the
tight bounding box of the translated vertices; dragging a single vertex
or inserting an edge-midpoint vertex changes only the vertex list and
leaves the stored box fields untouched (the tight box is recomputed on
demand by `getShapeBBox`, which ignores the stored fields for panels). -/
theorem panel_bbox_amended (i : String) (pts : List Point) (x y w h : ℚ)
    (pos off p2 : Point) (k : Nat) (hne : pts ≠ []) :
    (draggedShape (CanvasShape.panel i pts x y w h) pos off
      = (let newPts := pts.map fun p =>
           ⟨p.x + (pos.x - off.x - x), p.y + (pos.y - off.y - y)⟩
         CanvasShape.panel i newPts (tightBBox newPts).x (tightBBox newPts).y
           (tightBBox newPts).width (tightBBox newPts).height)) ∧
    (movePanelVertex (CanvasShape.panel i pts x y w h) k p2
      = CanvasShape.panel i (pts.set k p2) x y w h) ∧
    (addPanelVertex (CanvasShape.panel i pts x y w h) k
      = CanvasShape.panel i
          (pts.insertIdx (k + 1)
            ⟨((pts.getD k ⟨0, 0⟩).x + (pts.getD ((k + 1) % pts.length) ⟨0, 0⟩).x) / 2,
             ((pts.getD k ⟨0, 0⟩).y + (pts.getD ((k + 1) % pts.length) ⟨0, 0⟩).y) / 2⟩)
          x y w h) ∧
    (getShapeBBox (CanvasShape.panel i pts x y w h) = tightBBox pts) := by
  refine ⟨rfl, rfl, rfl, ?_⟩
  have hstep : getShapeBBox (CanvasShape.panel i pts x y w h)
      = if pts.isEmpty = true then ⟨x, y, 0, 0⟩ else tightBBox pts := rfl
  rw [hstep, if_neg (by simpa [List.isEmpty_iff] using hne)]

/-- Witness for C9's amended theorem on a concrete triangle panel. -/
theorem panel_bbox_amended_witness :
    (movePanelVertex (CanvasShape.panel "p" [⟨0, 0⟩, ⟨10, 0⟩, ⟨10, 10⟩] 0 0 10 10)
        0 ⟨3, 4⟩
      = CanvasShape.panel "p" ([⟨0, 0⟩, ⟨10, 0⟩, ⟨10, 10⟩].set 0 ⟨3, 4⟩) 0 0 10 10) ∧
    getShapeBBox (CanvasShape.panel "p" [⟨0, 0⟩, ⟨10, 0⟩, ⟨10, 10⟩] 0 0 10 10)
      = tightBBox [⟨0, 0⟩, ⟨10, 0⟩, ⟨10, 10⟩] :=
  let hthm := panel_bbox_amended "p" [⟨0, 0⟩, ⟨10, 0⟩, ⟨10, 10⟩] 0 0 10 10
    ⟨0, 0⟩ ⟨0, 0⟩ ⟨3, 4⟩ 0 (by simp)
  ⟨hthm.2.1, hthm.2.2.2⟩

theorem shapeOrder_isPanel (s : CanvasShape) (h : s.isPanel = true) :
    shapeOrder s = 10 := by
  cases s <;> simp_all [CanvasShape.isPanel, shapeOrder]

theorem shapeOrder_isDrawing (s : CanvasShape) (h : s.isDrawing = true) :
    shapeOrder s = 20 := by
  cases s <;> simp_all [CanvasShape.isDrawing, shapeOrder]

theorem shapeOrder_isArrow (s : CanvasShape) (h : s.isArrow = true) :
    shapeOrder s = 25 := by
  cases s <;> simp_all [CanvasShape.isArrow, shapeOrder]

theorem shapeOrder_isImage (s : CanvasShape) (h : s.isImage = true) :
    shapeOrder s = 30 := by
  cases s <;> simp_all [CanvasShape.isImage, shapeOrder]

theorem shapeOrder_isBubble (s : CanvasShape) (h : s.isBubble = true) :
    shapeOrder s = 40 := by
  cases s <;> simp_all [CanvasShape.isBubble, shapeOrder]

theorem shapeOrder_isText (s : CanvasShape) (h : s.isText = true) :
    shapeOrder s = 50 := by
  cases s <;> simp_all [CanvasShape.isText, shapeOrder]

theorem orderedInsert_skip (s : CanvasShape) (A B : List CanvasShape)
    (hA : ∀ a ∈ A, ¬ shapeOrder s ≤ shapeOrder a) :
    List.orderedInsert (fun a b => shapeOrder a ≤ shapeOrder b) s (A ++ B)
      = A ++ List.orderedInsert (fun a b => shapeOrder a ≤ shapeOrder b) s B := by
  induction A with
  | nil => rfl
  | cons a A ih =>
    simp only [List.cons_append, List.orderedInsert,
      if_neg (hA a (List.mem_cons_self a A))]
    exact congrArg (fun t => a :: t)
      (ih fun x hx => hA x (List.mem_cons_of_mem a hx))

theorem orderedInsert_front (s : CanvasShape) (B : List CanvasShape)
    (hB : ∀ b ∈ B, shapeOrder s ≤ shapeOrder b) :
    List.orderedInsert (fun a b => shapeOrder a ≤ shapeOrder b) s B
      = s :: B := by
  cases B with
  | nil => rfl
  | cons b B =>
    simp only [List.orderedInsert, if_pos (hB b (List.mem_cons_self b B))]

/-- C3 counterexample: with a standalone text shape first in the list
and a panel second, the on-screen renderer sorts the panel in front of
(below) the text, so the shape later in the list is drawn first, not on
top. -/
theorem z_order_counterexample :
    sortedShapes
        [CanvasShape.text "t" "hello" 30 0 0 200 40,
         CanvasShape.panel "p" [⟨0, 0⟩, ⟨10, 0⟩, ⟨10, 10⟩, ⟨0, 10⟩] 0 0 10 10]
      = [CanvasShape.panel "p" [⟨0, 0⟩, ⟨10, 0⟩, ⟨10, 10⟩, ⟨0, 10⟩] 0 0 10 10,
         CanvasShape.text "t" "hello" 30 0 0 200 40] ∧
    ([CanvasShape.panel "p" [⟨0, 0⟩, ⟨10, 0⟩, ⟨10, 10⟩, ⟨0, 10⟩] 0 0 10 10,
      CanvasShape.text "t" "hello" 30 0 0 200 40] : List CanvasShape)
      ≠ [CanvasShape.text "t" "hello" 30 0 0 200 40,
         CanvasShape.panel "p" [⟨0, 0⟩, ⟨10, 0⟩, ⟨10, 10⟩, ⟨0, 10⟩] 0 0 10 10] := by
  exact ⟨rfl, by simp⟩

theorem orderedInsert_filters (s : CanvasShape) (l : List CanvasShape) :
    List.orderedInsert (fun a b => shapeOrder a ≤ shapeOrder b) s
        (l.filter CanvasShape.isPanel ++ l.filter CanvasShape.isDrawing ++
         l.filter CanvasShape.isArrow ++ l.filter CanvasShape.isImage ++
         l.filter CanvasShape.isBubble ++ l.filter CanvasShape.isText)
      = (s :: l).filter CanvasShape.isPanel ++
        (s :: l).filter CanvasShape.isDrawing ++
        (s :: l).filter CanvasShape.isArrow ++
        (s :: l).filter CanvasShape.isImage ++
        (s :: l).filter CanvasShape.isBubble ++
        (s :: l).filter CanvasShape.isText := by
  cases s with
  | panel i pts x y w h =>
    rw [orderedInsert_front (CanvasShape.panel i pts x y w h) _ (by
      intro b hb
      have hss : shapeOrder (CanvasShape.panel i pts x y w h) = 10 := rfl
      rw [hss]
      simp only [List.append_assoc, List.mem_append, List.mem_filter] at hb
      rcases hb with ⟨_, h⟩ | ⟨_, h⟩ | ⟨_, h⟩ | ⟨_, h⟩ | ⟨_, h⟩ | ⟨_, h⟩
      · rw [shapeOrder_isPanel _ h]
      · rw [shapeOrder_isDrawing _ h]; omega
      · rw [shapeOrder_isArrow _ h]; omega
      · rw [shapeOrder_isImage _ h]; omega
      · rw [shapeOrder_isBubble _ h]; omega
      · rw [shapeOrder_isText _ h]; omega)]
    simp [List.filter_cons, CanvasShape.isPanel, CanvasShape.isDrawing,
      CanvasShape.isArrow, CanvasShape.isImage, CanvasShape.isBubble,
      CanvasShape.isText]
  | drawing i strokes c sw x y =>
    rw [List.append_assoc (l.filter CanvasShape.isPanel),
      List.append_assoc, List.append_assoc, List.append_assoc]
    rw [orderedInsert_skip (CanvasShape.drawing i strokes c sw x y)
      (l.filter CanvasShape.isPanel) _ (by
      intro a ha
      have hss : shapeOrder (CanvasShape.drawing i strokes c sw x y) = 20 := rfl
      rw [hss, shapeOrder_isPanel a (List.mem_filter.mp ha).2]
      omega)]
    rw [orderedInsert_front (CanvasShape.drawing i strokes c sw x y) _ (by
      intro b hb
      have hss : shapeOrder (CanvasShape.drawing i strokes c sw x y) = 20 := rfl
      rw [hss]
      simp only [List.append_assoc, List.mem_append, List.mem_filter] at hb
      rcases hb with ⟨_, h⟩ | ⟨_, h⟩ | ⟨_, h⟩ | ⟨_, h⟩ | ⟨_, h⟩
      · rw [shapeOrder_isDrawing _ h]
      · rw [shapeOrder_isArrow _ h]; omega
      · rw [shapeOrder_isImage _ h]; omega
      · rw [shapeOrder_isBubble _ h]; omega
      · rw [shapeOrder_isText _ h]; omega)]
    simp [List.filter_cons, CanvasShape.isPanel, CanvasShape.isDrawing,
      CanvasShape.isArrow, CanvasShape.isImage, CanvasShape.isBubble,
      CanvasShape.isText, List.append_assoc]
  | arrow i p0 p1 c sw x y =>
    rw [List.append_assoc, List.append_assoc, List.append_assoc,
      List.append_assoc, ← List.append_assoc (l.filter CanvasShape.isPanel)]
    rw [orderedInsert_skip (CanvasShape.arrow i p0 p1 c sw x y)
      (l.filter CanvasShape.isPanel ++ l.filter CanvasShape.isDrawing) _ (by
      intro a ha
      have hss : shapeOrder (CanvasShape.arrow i p0 p1 c sw x y) = 25 := rfl
      rw [hss]
      simp only [List.mem_append, List.mem_filter] at ha
      rcases ha with ⟨_, h⟩ | ⟨_, h⟩
      · rw [shapeOrder_isPanel a h]; omega
      · rw [shapeOrder_isDrawing a h]; omega)]
    rw [orderedInsert_front (CanvasShape.arrow i p0 p1 c sw x y) _ (by
      intro b hb
      have hss : shapeOrder (CanvasShape.arrow i p0 p1 c sw x y) = 25 := rfl
      rw [hss]
      simp only [List.append_assoc, List.mem_append, List.mem_filter] at hb
      rcases hb with ⟨_, h⟩ | ⟨_, h⟩ | ⟨_, h⟩ | ⟨_, h⟩
      · rw [shapeOrder_isArrow _ h]
      · rw [shapeOrder_isImage _ h]; omega
      · rw [shapeOrder_isBubble _ h]; omega
      · rw [shapeOrder_isText _ h]; omega)]
    simp [List.filter_cons, CanvasShape.isPanel, CanvasShape.isDrawing,
      CanvasShape.isArrow, CanvasShape.isImage, CanvasShape.isBubble,
      CanvasShape.isText, List.append_assoc]
  | image i href cid pidx pose x y w h =>
    rw [List.append_assoc, List.append_assoc]
    rw [orderedInsert_skip (CanvasShape.image i href cid pidx pose x y w h)
      (l.filter CanvasShape.isPanel ++ l.filter CanvasShape.isDrawing ++
        l.filter CanvasShape.isArrow) _ (by
      intro a ha
      have hss : shapeOrder (CanvasShape.image i href cid pidx pose x y w h)
          = 30 := rfl
      rw [hss]
      simp only [List.append_assoc, List.mem_append, List.mem_filter] at ha
      rcases ha with ⟨_, h⟩ | ⟨_, h⟩ | ⟨_, h⟩
      · rw [shapeOrder_isPanel a h]; omega
      · rw [shapeOrder_isDrawing a h]; omega
      · rw [shapeOrder_isArrow a h]; omega)]
    rw [orderedInsert_front (CanvasShape.image i href cid pidx pose x y w h) _ (by
      intro b hb
      have hss : shapeOrder (CanvasShape.image i href cid pidx pose x y w h)
          = 30 := rfl
      rw [hss]
      simp only [List.append_assoc, List.mem_append, List.mem_filter] at hb
      rcases hb with ⟨_, h⟩ | ⟨_, h⟩ | ⟨_, h⟩
      · rw [shapeOrder_isImage _ h]
      · rw [shapeOrder_isBubble _ h]; omega
      · rw [shapeOrder_isText _ h]; omega)]
    simp [List.filter_cons, CanvasShape.isPanel, CanvasShape.isDrawing,
      CanvasShape.isArrow, CanvasShape.isImage, CanvasShape.isBubble,
      CanvasShape.isText, List.append_assoc]
  | bubble i kind content tail x y w h =>
    rw [List.append_assoc]
    rw [orderedInsert_skip (CanvasShape.bubble i kind content tail x y w h)
      (l.filter CanvasShape.isPanel ++ l.filter CanvasShape.isDrawing ++
        l.filter CanvasShape.isArrow ++ l.filter CanvasShape.isImage) _ (by
      intro a ha
      have hss : shapeOrder (CanvasShape.bubble i kind content tail x y w h)
          = 40 := rfl
      rw [hss]
      simp only [List.append_assoc, List.mem_append, List.mem_filter] at ha
      rcases ha with ⟨_, h⟩ | ⟨_, h⟩ | ⟨_, h⟩ | ⟨_, h⟩
      · rw [shapeOrder_isPanel a h]; omega
      · rw [shapeOrder_isDrawing a h]; omega
      · rw [shapeOrder_isArrow a h]; omega
      · rw [shapeOrder_isImage a h]; omega)]
    rw [orderedInsert_front (CanvasShape.bubble i kind content tail x y w h) _ (by
      intro b hb
      have hss : shapeOrder (CanvasShape.bubble i kind content tail x y w h)
          = 40 := rfl
      rw [hss]
      simp only [List.mem_append, List.mem_filter] at hb
      rcases hb with ⟨_, h⟩ | ⟨_, h⟩
      · rw [shapeOrder_isBubble _ h]
      · rw [shapeOrder_isText _ h]; omega)]
    simp [List.filter_cons, CanvasShape.isPanel, CanvasShape.isDrawing,
      CanvasShape.isArrow, CanvasShape.isImage, CanvasShape.isBubble,
      CanvasShape.isText, List.append_assoc]
  | text i content fontSize x y w h =>
    rw [orderedInsert_skip (CanvasShape.text i content fontSize x y w h)
      (l.filter CanvasShape.isPanel ++ l.filter CanvasShape.isDrawing ++
        l.filter CanvasShape.isArrow ++ l.filter CanvasShape.isImage ++
        l.filter CanvasShape.isBubble) _ (by
      intro a ha
      have hss : shapeOrder (CanvasShape.text i content fontSize x y w h)
          = 50 := rfl
      rw [hss]
      simp only [List.append_assoc, List.mem_append, List.mem_filter] at ha
      rcases ha with ⟨_, h⟩ | ⟨_, h⟩ | ⟨_, h⟩ | ⟨_, h⟩ | ⟨_, h⟩
      · rw [shapeOrder_isPanel a h]; omega
      · rw [shapeOrder_isDrawing a h]; omega
      · rw [shapeOrder_isArrow a h]; omega
      · rw [shapeOrder_isImage a h]; omega
      · rw [shapeOrder_isBubble a h]; omega)]
    rw [orderedInsert_front (CanvasShape.text i content fontSize x y w h) _ (by
      intro b hb
      have hss : shapeOrder (CanvasShape.text i content fontSize x y w h)
          = 50 := rfl
      rw [hss, shapeOrder_isText _ (List.mem_filter.mp hb).2])]
    simp [List.filter_cons, CanvasShape.isPanel, CanvasShape.isDrawing,
      CanvasShape.isArrow, CanvasShape.isImage, CanvasShape.isBubble,
      CanvasShape.isText, List.append_assoc]

/-- C3 amended: the renderer draws shapes grouped by kind in the fixed
priority order panel, drawing, arrow, image, bubble, text; within one
kind the list order is preserved (stable sort), so only among shapes of
the same kind is the later shape drawn on top; the compositor likewise
draws panels, then images, then bubbles, then standalone text, each
group in list order. -/
theorem z_order_amended (shapes : List CanvasShape) (cfg : CanvasConfig)
    (includeCharacters : Bool) (charactersToDraw : List Character) :
    sortedShapes shapes
      = shapes.filter CanvasShape.isPanel ++
        shapes.filter CanvasShape.isDrawing ++
        shapes.filter CanvasShape.isArrow ++
        shapes.filter CanvasShape.isImage ++
        shapes.filter CanvasShape.isBubble ++
        shapes.filter CanvasShape.isText ∧
    (getLayoutAsImage cfg shapes includeCharacters charactersToDraw).elements
      = panelElements 0 (shapes.filter CanvasShape.isPanel) ++
        (if includeCharacters then
          (shapes.filter CanvasShape.isImage).flatMap
            (imageShapeElements charactersToDraw)
        else []) ++
        (shapes.filter CanvasShape.isBubble).flatMap bubbleElements ++
        (shapes.filter CanvasShape.isText).flatMap textElements := by
  refine ⟨?_, rfl⟩
  induction shapes with
  | nil => rfl
  | cons s l ih =>
    have hstep : sortedShapes (s :: l)
        = List.orderedInsert (fun a b => shapeOrder a ≤ shapeOrder b) s
            (sortedShapes l) := rfl
    rw [hstep, ih, orderedInsert_filters s l]

theorem panelElements_mem (i : String) (pts : List Point) (x y w h : ℚ)
    (panels : List CanvasShape) (n : Nat)
    (hmem : CanvasShape.panel i pts x y w h ∈ panels) :
    RenderElement.panelPolygon pts ∈ panelElements n panels ∧
    ∃ m : Nat, RenderElement.panelNumber (getPolygonCentroid pts) (toString m)
      ∈ panelElements n panels := by
  induction panels generalizing n with
  | nil => simp at hmem
  | cons s rest ih =>
    rcases List.mem_cons.mp hmem with heq | hmem2
    · rw [← heq]
      exact ⟨List.mem_cons_self _ _,
        n + 1, List.mem_cons_of_mem _ (List.mem_cons_self _ _)⟩
    · cases s with
      | panel i2 pts2 x2 y2 w2 h2 =>
        obtain ⟨h1, m, h2⟩ := ih (n + 1) hmem2
        exact ⟨List.mem_cons_of_mem _ (List.mem_cons_of_mem _ h1),
          m, List.mem_cons_of_mem _ (List.mem_cons_of_mem _ h2)⟩
      | text i2 c2 f2 x2 y2 w2 h2 => exact ih n hmem2
      | bubble i2 k2 c2 t2 x2 y2 w2 h2 => exact ih n hmem2
      | drawing i2 s2 c2 sw2 x2 y2 => exact ih n hmem2
      | image i2 h2 c2 p2 po2 x2 y2 w2 hh2 => exact ih n hmem2
      | arrow i2 p02 p12 c2 sw2 x2 y2 => exact ih n hmem2

/-- C4 counterexample: a nonempty shape list holding one freehand
Drawing and one Arrow produces an empty compositor output: `drawing`
and `arrow` shapes are never rasterized by `getLayoutAsImage`, contrary
to the claim that every shape kind is. -/
theorem compositor_counterexample :
    ((getLayoutAsImage (canvasConfigOf "A4")
        [CanvasShape.drawing "d" [[⟨0, 0⟩, ⟨5, 5⟩]] "#000000" 5 0 0,
         CanvasShape.arrow "a" ⟨0, 0⟩ ⟨10, 10⟩ "#FF0000" 5 0 0]
        true []).elements = []) ∧
    ([CanvasShape.drawing "d" [[⟨0, 0⟩, ⟨5, 5⟩]] "#000000" 5 0 0,
      CanvasShape.arrow "a" ⟨0, 0⟩ ⟨10, 10⟩ "#FF0000" 5 0 0]
      ≠ ([] : List CanvasShape)) :=
  ⟨rfl, by simp⟩

/-- C4 amended: `getLayoutAsImage` produces a raster of exactly the
configured page size, with no dependence on any view transform (the
function takes none); it rasterizes every panel (outline plus an
ordinal at the centroid), every bubble (silhouette with tail data plus
its text), every standalone text, and — when `includeCharacters` — every
image shape's pose overlay and labels; but Drawing and Arrow shapes
contribute nothing: removing them from the shape list leaves the output
unchanged. -/
theorem compositor_amended (cfg : CanvasConfig) (shapes : List CanvasShape)
    (includeCharacters : Bool) (charactersToDraw : List Character) :
    ((getLayoutAsImage cfg shapes includeCharacters charactersToDraw).width
        = cfg.w ∧
     (getLayoutAsImage cfg shapes includeCharacters charactersToDraw).height
        = cfg.h) ∧
    (∀ (i : String) (pts : List Point) (x y w h : ℚ),
      CanvasShape.panel i pts x y w h ∈ shapes →
      RenderElement.panelPolygon pts
          ∈ (getLayoutAsImage cfg shapes includeCharacters
              charactersToDraw).elements ∧
      ∃ m : Nat, RenderElement.panelNumber (getPolygonCentroid pts) (toString m)
          ∈ (getLayoutAsImage cfg shapes includeCharacters
              charactersToDraw).elements) ∧
    (∀ s ∈ shapes, s.isImage = true → includeCharacters = true →
      ∀ e ∈ imageShapeElements charactersToDraw s,
        e ∈ (getLayoutAsImage cfg shapes includeCharacters
              charactersToDraw).elements) ∧
    (∀ (i : String) (kind : BubbleKind) (content : String)
        (tail : Option Point) (x y w h : ℚ),
      CanvasShape.bubble i kind content tail x y w h ∈ shapes →
      RenderElement.bubbleOutline kind tail x y w h
          ∈ (getLayoutAsImage cfg shapes includeCharacters
              charactersToDraw).elements ∧
      RenderElement.bubbleTextBlock (x + 10) (y + 10) (w - 20) (h - 20) content
          ∈ (getLayoutAsImage cfg shapes includeCharacters
              charactersToDraw).elements) ∧
    (∀ (i content : String) (fontSize x y w h : ℚ),
      CanvasShape.text i content fontSize x y w h ∈ shapes →
      RenderElement.textRun x y fontSize content
          ∈ (getLayoutAsImage cfg shapes includeCharacters
              charactersToDraw).elements) ∧
    getLayoutAsImage cfg
        (shapes.filter fun s => !(s.isDrawing || s.isArrow))
        includeCharacters charactersToDraw
      = getLayoutAsImage cfg shapes includeCharacters charactersToDraw := by
  refine ⟨⟨rfl, rfl⟩, ?_, ?_, ?_, ?_, ?_⟩
  · intro i pts x y w h hmem
    have hfil : CanvasShape.panel i pts x y w h
        ∈ shapes.filter CanvasShape.isPanel :=
      List.mem_filter.mpr ⟨hmem, rfl⟩
    obtain ⟨h1, m, h2⟩ := panelElements_mem i pts x y w h _ 0 hfil
    exact ⟨List.mem_append_left _ (List.mem_append_left _
        (List.mem_append_left _ h1)),
      m, List.mem_append_left _ (List.mem_append_left _
        (List.mem_append_left _ h2))⟩
  · intro s hs himg hinc e he
    have hfil : s ∈ shapes.filter CanvasShape.isImage :=
      List.mem_filter.mpr ⟨hs, himg⟩
    have hflat : e ∈ (shapes.filter CanvasShape.isImage).flatMap
        (imageShapeElements charactersToDraw) :=
      List.mem_flatMap.mpr ⟨s, hfil, he⟩
    refine List.mem_append_left _ (List.mem_append_left _
      (List.mem_append_right _ ?_))
    rw [hinc]
    exact hflat
  · intro i kind content tail x y w h hmem
    have hfil : CanvasShape.bubble i kind content tail x y w h
        ∈ shapes.filter CanvasShape.isBubble :=
      List.mem_filter.mpr ⟨hmem, rfl⟩
    constructor
    · refine List.mem_append_left _ (List.mem_append_right _ ?_)
      exact List.mem_flatMap.mpr ⟨_, hfil, List.mem_cons_self _ _⟩
    · refine List.mem_append_left _ (List.mem_append_right _ ?_)
      exact List.mem_flatMap.mpr
        ⟨_, hfil, List.mem_cons_of_mem _ (List.mem_cons_self _ _)⟩
  · intro i content fontSize x y w h hmem
    have hfil : CanvasShape.text i content fontSize x y w h
        ∈ shapes.filter CanvasShape.isText :=
      List.mem_filter.mpr ⟨hmem, rfl⟩
    exact List.mem_append_right _
      (List.mem_flatMap.mpr ⟨_, hfil, List.mem_cons_self _ _⟩)
  · have h1 : (shapes.filter fun s => !(s.isDrawing || s.isArrow)).filter
        CanvasShape.isPanel = shapes.filter CanvasShape.isPanel := by
      rw [List.filter_filter]
      exact List.filter_congr fun a _ => by cases a <;> rfl
    have h2 : (shapes.filter fun s => !(s.isDrawing || s.isArrow)).filter
        CanvasShape.isImage = shapes.filter CanvasShape.isImage := by
      rw [List.filter_filter]
      exact List.filter_congr fun a _ => by cases a <;> rfl
    have h3 : (shapes.filter fun s => !(s.isDrawing || s.isArrow)).filter
        CanvasShape.isBubble = shapes.filter CanvasShape.isBubble := by
      rw [List.filter_filter]
      exact List.filter_congr fun a _ => by cases a <;> rfl
    have h4 : (shapes.filter fun s => !(s.isDrawing || s.isArrow)).filter
        CanvasShape.isText = shapes.filter CanvasShape.isText := by
      rw [List.filter_filter]
      exact List.filter_congr fun a _ => by cases a <;> rfl
    simp only [getLayoutAsImage, h1, h2, h3, h4]

/-- Witness for C4's amended theorem: one panel, one bubble, one text
in a concrete shape list. -/
theorem compositor_amended_witness :
    RenderElement.panelPolygon [⟨0, 0⟩, ⟨10, 0⟩, ⟨10, 10⟩, ⟨0, 10⟩]
      ∈ (getLayoutAsImage (canvasConfigOf "A4")
          [CanvasShape.panel "p" [⟨0, 0⟩, ⟨10, 0⟩, ⟨10, 10⟩, ⟨0, 10⟩] 0 0 10 10,
           CanvasShape.bubble "b" BubbleKind.oval "hi" none 20 20 60 40,
           CanvasShape.text "t" "x" 30 5 5 200 40]
          false []).elements ∧
    RenderElement.bubbleOutline BubbleKind.oval none 20 20 60 40
      ∈ (getLayoutAsImage (canvasConfigOf "A4")
          [CanvasShape.panel "p" [⟨0, 0⟩, ⟨10, 0⟩, ⟨10, 10⟩, ⟨0, 10⟩] 0 0 10 10,
           CanvasShape.bubble "b" BubbleKind.oval "hi" none 20 20 60 40,
           CanvasShape.text "t" "x" 30 5 5 200 40]
          false []).elements ∧
    RenderElement.textRun 5 5 30 "x"
      ∈ (getLayoutAsImage (canvasConfigOf "A4")
          [CanvasShape.panel "p" [⟨0, 0⟩, ⟨10, 0⟩, ⟨10, 10⟩, ⟨0, 10⟩] 0 0 10 10,
           CanvasShape.bubble "b" BubbleKind.oval "hi" none 20 20 60 40,
           CanvasShape.text "t" "x" 30 5 5 200 40]
          false []).elements := by
  have h := compositor_amended (canvasConfigOf "A4")
    [CanvasShape.panel "p" [⟨0, 0⟩, ⟨10, 0⟩, ⟨10, 10⟩, ⟨0, 10⟩] 0 0 10 10,
     CanvasShape.bubble "b" BubbleKind.oval "hi" none 20 20 60 40,
     CanvasShape.text "t" "x" 30 5 5 200 40] false []
  refine ⟨(h.2.1 "p" [⟨0, 0⟩, ⟨10, 0⟩, ⟨10, 10⟩, ⟨0, 10⟩] 0 0 10 10
      (by simp)).1, ?_, ?_⟩
  · exact (h.2.2.2.1 "b" BubbleKind.oval "hi" none 20 20 60 40 (by simp)).1
  · exact h.2.2.2.2.1 "t" "x" 30 5 5 200 40 (by simp)

end MangaCanvas
